import Mathlib

/-!
# Verification of the custom heap allocator

A shallow embedding of the C heap allocator in
`src/heap_allocator/` (data_structure.h, utils.h, algorithms.h,
mmap_allocator.h, heap_allocator.h), together with proofs and
refutations of the specification's claims.

## Modelling conventions

* Machine memory is a total function `mem : Nat → Nat` from byte
  addresses to the 64-bit word stored there.  The allocator only ever
  reads and writes whole words at 8-byte offsets, so a word-valued map
  suffices.  Static storage is zero-initialised (C semantics for the
  BSS segment), hence the initial memory is the constant-zero map.
* Pointers are byte addresses (`Nat`); the null pointer is `0`.  The
  static array `heap` is placed at address 4096, so `heap_start = 4096`
  and `heap_end = 4096 + 4096` initially.  On the modelled 64-bit
  machine `sizeof(word_t) = sizeof(size_t) = sizeof(Footer) = 8`,
  `offsetof(Block, payload) = 8`, and `sizeof(Block) = 24`
  (an 8-byte header plus the 16-byte next/prev union).
* `b->header & ~3UL` is `x - x % 4`; `x & SIZE_MASK` (mask `~7`) is
  `x / 8 * 8`; `(x + p - 1) & ~(p - 1)` for the page size `p = 4096`
  is `(x + p - 1) / p * p`.  Sizes stay far below `2^64` in every
  state considered, so `Nat` arithmetic agrees with `size_t`
  arithmetic; pointer comparisons such as
  `(unsigned char*)block - sizeof(Footer) >= (unsigned char*)heap_start`
  are rendered as `heapStart + 8 ≤ block` to avoid truncated
  subtraction.
* The two system calls are oracles: `sbrkRets` and `mmapRets` are the
  streams of results the kernel will hand back (`none` models
  `(void*)-1` / `MAP_FAILED`).  `get_page_size()` is modelled by its
  fallback constant 4096.
* The mmap tracking registry stores its nodes in libc `malloc` memory,
  outside the modelled heap; it is represented by the list of tracked
  block addresses in insertion order, with removal semantics exactly
  matching the `mmap_track_remove` loop.  `munmap` calls are logged in
  `unmaps`.
* Loops that chase in-memory `next_free` pointers are given explicit
  fuel; theorems about them are stated for the fuel-truncated chains.
-/

namespace HeapAlloc

/-- `HEAP_TOTAL_SIZE` from data_structure.h. -/
def HEAP_TOTAL_SIZE : Nat := 4096

/-- `NUM_LISTS` from data_structure.h. -/
def NUM_LISTS : Nat := 6

/-- `MMAP_THRESHOLD` from data_structure.h (128 KiB). -/
def MMAP_THRESHOLD : Nat := 128 * 1024

/-- `sizeof(word_t)` = `sizeof(size_t)` = `sizeof(Footer)` on the
modelled 64-bit machine. -/
def wordSize : Nat := 8

/-- `sizeof(Block)`: the 8-byte header plus the 16-byte union holding
`next_free`/`prev_free`. -/
def sizeofBlock : Nat := 24

/-- The page size: `get_page_size()` modelled by its 4096 fallback. -/
def pageSize : Nat := 4096

/-- The global state of the allocator: the word-addressed memory, the
three heap pointers of data_structure.h, the segregated list heads,
the mmap tracking registry, the log of `munmap` calls, and the oracle
streams for the `sbrk` and `mmap` system calls. -/
structure AllocState where
  mem : Nat → Nat
  heapStart : Nat
  heapTop : Nat
  heapEnd : Nat
  lists : Nat → Nat
  mmapTracked : List Nat
  unmaps : List (Nat × Nat)
  sbrkRets : List (Option Nat)
  mmapRets : List (Option Nat)

/-- Store the word `v` at address `a`. -/
def writeW (s : AllocState) (a v : Nat) : AllocState :=
  { s with mem := fun x => if x = a then v else s.mem x }

/-- The state at program start: zero-initialised static storage, the
4096-byte `heap` array at address 4096, empty segregated lists, and
the given system-call oracles. -/
def initState (sb mm : List (Option Nat)) : AllocState :=
  { mem := fun _ => 0
    heapStart := 4096
    heapTop := 4096
    heapEnd := 4096 + HEAP_TOTAL_SIZE
    lists := fun _ => 0
    mmapTracked := []
    unmaps := []
    sbrkRets := sb
    mmapRets := mm }

/-! ## utils.h: block primitives -/

/-- `get_size`: `b->header & ~3UL`. -/
def get_size (s : AllocState) (b : Nat) : Nat :=
  s.mem b - s.mem b % 4

/-- `is_used`: `b->header & 1`. -/
def is_used (s : AllocState) (b : Nat) : Bool :=
  s.mem b % 2 = 1

/-- `set_size`: `b->header = (size & SIZE_MASK) | (b->header & 3)`. -/
def set_size (s : AllocState) (b size : Nat) : AllocState :=
  writeW s b (size / 8 * 8 + s.mem b % 4)

/-- `set_used`: set or clear the low bit of the header. -/
def set_used (s : AllocState) (b : Nat) (used : Bool) : AllocState :=
  writeW s b
    (if used then (if s.mem b % 2 = 1 then s.mem b else s.mem b + 1)
     else s.mem b - s.mem b % 2)

/-- `set_header`: `b->header = (size & SIZE_MASK) | (used ? 1 : 0)`. -/
def set_header (s : AllocState) (b size : Nat) (used : Bool) : AllocState :=
  writeW s b (size / 8 * 8 + (if used then 1 else 0))

/-- `get_list_index` from utils.h: the size-class bucket. -/
def get_list_index (size : Nat) : Nat :=
  if size ≤ 32 then 0
  else if size ≤ 64 then 1
  else if size ≤ 128 then 2
  else if size ≤ 256 then 3
  else if size ≤ 512 then 4
  else 5

/-- `get_footer`: `(Footer*)((unsigned char*)b + get_size(b) - sizeof(Footer))`. -/
def get_footer (s : AllocState) (b : Nat) : Nat :=
  b + get_size s b - 8

/-- `get_prev_physical_block`: read the word below the header, mask it
with `SIZE_MASK`, subtract. -/
def get_prev_physical_block (s : AllocState) (b : Nat) : Nat :=
  b - s.mem (b - 8) / 8 * 8

/-- `get_next_physical_block`. -/
def get_next_physical_block (s : AllocState) (b : Nat) : Nat :=
  b + get_size s b

/-- `get_block_from_payload`: subtract `offsetof(Block, payload) = 8`. -/
def get_block_from_payload (p : Nat) : Nat := p - 8

/-- `setup_block`: write the header, then copy it to the footer. -/
def setup_block (s : AllocState) (b size : Nat) (used : Bool) : AllocState :=
  let s1 := set_header s b size used
  writeW s1 (get_footer s1 b) (s1.mem b)

/-! ## utils.h: free-list manipulation

`next_free` lives at offset 8 and `prev_free` at offset 16 from the
block header.  All reads happen in the order of the C statements. -/

/-- `remove_from_free_list`. -/
def remove_from_free_list (s : AllocState) (block : Nat) : AllocState :=
  let pf := s.mem (block + 16)
  let s1 :=
    if pf ≠ 0 then writeW s (pf + 8) (s.mem (block + 8))
    else { s with lists := fun j =>
            if j = get_list_index (get_size s block) then s.mem (block + 8)
            else s.lists j }
  let nf := s1.mem (block + 8)
  let s2 := if nf ≠ 0 then writeW s1 (nf + 16) (s1.mem (block + 16)) else s1
  writeW (writeW s2 (block + 8) 0) (block + 16) 0

/-- `insert_into_free_list`: push onto the head of the bucket. -/
def insert_into_free_list (s : AllocState) (block : Nat) : AllocState :=
  let idx := get_list_index (get_size s block)
  let s1 := writeW s (block + 8) (s.lists idx)
  let s2 := writeW s1 (block + 16) 0
  let s3 := if s.lists idx ≠ 0 then writeW s2 (s.lists idx + 16) block else s2
  { s3 with lists := fun j => if j = idx then block else s3.lists j }

/-! ## mmap_allocator.h -/

/-- `is_mmap`: `b->header & MMAP_FLAG` with `MMAP_FLAG = 2`. -/
def is_mmap (s : AllocState) (b : Nat) : Bool :=
  s.mem b / 2 % 2 = 1

/-- `set_mmap`. -/
def set_mmap (s : AllocState) (b : Nat) (flag : Bool) : AllocState :=
  writeW s b
    (if flag then (if s.mem b / 2 % 2 = 1 then s.mem b else s.mem b + 2)
     else (if s.mem b / 2 % 2 = 1 then s.mem b - 2 else s.mem b))

/-- The `mmap_track_remove` loop on the registry contents: drop the
first node whose `block` field matches. -/
def mmap_track_remove_list : List Nat → Nat → List Nat
  | [], _ => []
  | x :: xs, b => if x = b then xs else x :: mmap_track_remove_list xs b

/-- `mmap_allocation`: page-round `sizeof(Block) + size`, map it, write
the header `(mmap_size & SIZE_MASK) | 1 | MMAP_FLAG`, append to the
tracking registry, return the payload. -/
def mmap_allocation (s : AllocState) (size : Nat) : AllocState × Option Nat :=
  let total := sizeofBlock + size
  let mmapSize := (total + pageSize - 1) / pageSize * pageSize
  match s.mmapRets with
  | [] => (s, none)
  | none :: rest => ({ s with mmapRets := rest }, none)
  | some a :: rest =>
    let s0 := { s with mmapRets := rest }
    let s1 := writeW s0 a (mmapSize / 8 * 8 + 1 + 2)
    ({ s1 with mmapTracked := s1.mmapTracked ++ [a] }, some (a + 8))

/-- `mmap_free`: remove the registry record, then `munmap(block, size)`
(logged in `unmaps`). -/
def mmap_free (s : AllocState) (block : Nat) : AllocState :=
  let size := get_size s block
  let s1 := { s with mmapTracked := mmap_track_remove_list s.mmapTracked block }
  { s1 with unmaps := s1.unmaps ++ [(block, size)] }

/-! ## algorithms.h -/

/-- `align`: round up to the next multiple of the word size. -/
def align (n : Nat) : Nat :=
  (n + wordSize - 1) / wordSize * wordSize

/-- The next-neighbour check of `coalesce` (line 95 of algorithms.h):
`(unsigned char*)next_block < heap_top && !is_used(next_block)`. -/
def coalesce_next_ok (s : AllocState) (block : Nat) : Bool :=
  get_next_physical_block s block < s.heapTop &&
    !(is_used s (get_next_physical_block s block))

/-- The previous-neighbour check of `coalesce` (lines 103-118 of
algorithms.h): `some prev_block` exactly when the C code sets
`prev_is_free = true`. -/
def coalesce_prev_ok (s : AllocState) (block : Nat) : Option Nat :=
  if block ≠ s.heapStart then
    if s.heapStart + 8 ≤ block then
      let prev_block := get_prev_physical_block s block
      if s.heapStart ≤ prev_block && !(is_used s prev_block) then some prev_block
      else none
    else none
  else none

/-- The addresses whose memory words the neighbour-check phase of
`coalesce` (lines 91-118 of algorithms.h) dereferences, in order: the
block's own header (for `get_next_physical_block` and `get_size`), the
next block's header (only when `next_block < heap_top`, thanks to the
short-circuit `&&`), the word immediately below the block (the
presumed footer of the previous block, read by
`get_prev_physical_block` when the two guards pass), and the presumed
previous block's header (read by `is_used(prev_block)` when it is
above `heap_start`). -/
def coalesceCheckReads (s : AllocState) (block : Nat) : List Nat :=
  [block] ++
  (if get_next_physical_block s block < s.heapTop
   then [get_next_physical_block s block] else []) ++
  (if block ≠ s.heapStart ∧ s.heapStart + 8 ≤ block then
     [block - 8] ++
     (if s.heapStart ≤ get_prev_physical_block s block
      then [get_prev_physical_block s block] else [])
   else [])

/-- `coalesce`: merge the freed block with its free physical
neighbours, following the statement order of algorithms.h lines
78-143.  Returns the new state and the (possibly moved) block. -/
def coalesce (s : AllocState) (block : Nat) : AllocState × Nat :=
  let next_block := get_next_physical_block s block
  let next_is_free := coalesce_next_ok s block
  let prevFree := coalesce_prev_ok s block
  let new_size := get_size s block
  let s1 := if next_is_free then remove_from_free_list s next_block else s
  let new_size1 :=
    if next_is_free then new_size + get_size s1 next_block else new_size
  match prevFree with
  | some prev_block =>
    let s2 := remove_from_free_list s1 prev_block
    let new_size2 := new_size1 + get_size s2 prev_block
    (setup_block s2 prev_block new_size2 false, prev_block)
  | none => (setup_block s1 block new_size1 false, block)

/-- The inner `while (current != NULL)` loop of `first_fit`, with
fuel bounding the number of `next_free` hops. -/
def ffWalk (s : AllocState) (size : Nat) : Nat → Nat → Option Nat
  | 0, _ => none
  | Nat.succ f, cur =>
    if cur = 0 then none
    else if size ≤ get_size s cur then some cur
    else ffWalk s size f (s.mem (cur + 8))

/-- The outer `for (int i = start_idx; i < NUM_LISTS; i++)` loop of
`first_fit`, recursing on the number of buckets left to scan. -/
def ffFrom (s : AllocState) (size fuel : Nat) : Nat → Nat → Option Nat
  | 0, _ => none
  | Nat.succ c, i =>
    match ffWalk s size fuel (s.lists i) with
    | some b => some b
    | none => ffFrom s size fuel c (i + 1)

/-- `first_fit` from algorithms.h. -/
def first_fit (s : AllocState) (size fuel : Nat) : Option Nat :=
  ffFrom s size fuel (NUM_LISTS - get_list_index size) (get_list_index size)

/-- `split_block`: carve the tail into a new free block when at least
`min_block_size = sizeof(Block) + sizeof(Footer)` bytes remain. -/
def split_block (s : AllocState) (block needed_size : Nat) : AllocState :=
  let current_size := get_size s block
  let min_block_size := sizeofBlock + 8
  if needed_size + min_block_size ≤ current_size then
    let s1 := setup_block s block needed_size true
    let new_block := block + needed_size
    let new_size := current_size - needed_size
    let s2 := setup_block s1 new_block new_size false
    insert_into_free_list s2 new_block
  else s

/-- `sbrk_allocation` from algorithms.h: page-round the request, call
`sbrk` (the oracle), rescue the pre-existing slack as a free block when
the returned address is not contiguous, then carve the requested block
at the (possibly moved) `heap_top`. -/
def sbrk_allocation (s : AllocState) (total_size : Nat) : AllocState × Option Nat :=
  let size_to_alloc := if total_size < pageSize then pageSize else total_size
  let sbrkSize := (size_to_alloc + pageSize - 1) / pageSize * pageSize
  match s.sbrkRets with
  | [] => (s, none)
  | none :: rest => ({ s with sbrkRets := rest }, none)
  | some request :: rest =>
    let s0 := { s with sbrkRets := rest }
    let s2 :=
      if request ≠ s0.heapEnd then
        let remaining := s0.heapEnd - s0.heapTop
        let s1 :=
          if sizeofBlock + 8 ≤ remaining then
            insert_into_free_list (setup_block s0 s0.heapTop remaining false)
              s0.heapTop
          else s0
        { s1 with heapTop := request, heapEnd := request + sbrkSize }
      else { s0 with heapEnd := s0.heapEnd + sbrkSize }
    let block := s2.heapTop
    let s3 := setup_block s2 block total_size true
    ({ s3 with heapTop := s3.heapTop + total_size }, some (block + 8))

/-! ## heap_allocator.h -/

/-- The total size `my_malloc` computes for a request:
`sizeof(size_t) + align(size) + sizeof(size_t)`, bumped to
`min_block_size = sizeof(Block) + sizeof(size_t)` when smaller. -/
def mallocTotal (size : Nat) : Nat :=
  let t := 8 + align size + 8
  if t < sizeofBlock + 8 then sizeofBlock + 8 else t

/-- `my_malloc` from heap_allocator.h. -/
def my_malloc (s : AllocState) (size fuel : Nat) : AllocState × Option Nat :=
  if size = 0 then (s, none)
  else
    let aligned_size := align size
    let total_size := mallocTotal size
    if MMAP_THRESHOLD ≤ aligned_size then mmap_allocation s aligned_size
    else
      match first_fit s total_size fuel with
      | some block =>
        let s1 := remove_from_free_list s block
        let s2 := split_block s1 block total_size
        let s3 := set_used s2 block true
        let s4 := writeW s3 (get_footer s3 block) (s3.mem block)
        (s4, some (block + 8))
      | none =>
        if s.heapTop + total_size ≤ s.heapEnd then
          let s1 := setup_block s s.heapTop total_size true
          ({ s1 with heapTop := s1.heapTop + total_size },
           some (s.heapTop + 8))
        else sbrk_allocation s total_size

/-- `my_free` from heap_allocator.h. -/
def my_free (s : AllocState) (p : Nat) : AllocState :=
  if p = 0 then s
  else
    let block := get_block_from_payload p
    if is_mmap s block then mmap_free s block
    else
      let s1 := set_used s block false
      let s2 := writeW s1 (get_footer s1 block) (s1.mem block)
      let r := coalesce s2 block
      insert_into_free_list r.1 r.2

/-! ## Derived notions used by the claims -/

/-- The block traversal of `print_memory` in debug_utilities.h: step
through physical blocks from `cur` while below `stop`, halting on a
zero-sized block.  The list of visited block addresses is the
"walkable heap" of the region starting at `cur`. -/
def walkBlocks (s : AllocState) : Nat → Nat → Nat → List Nat
  | 0, _, _ => []
  | Nat.succ f, cur, stop =>
    if cur < stop then
      if get_size s cur = 0 then []
      else cur :: walkBlocks s f (cur + get_size s cur) stop
    else []

/-- The fuel-truncated contents of one free list, following
`next_free` pointers from a head. -/
def chainList (s : AllocState) : Nat → Nat → List Nat
  | 0, _ => []
  | Nat.succ f, cur =>
    if cur = 0 then [] else cur :: chainList s f (s.mem (cur + 8))

/-- The concatenation of the chains of buckets `i, i+1, ...` for
`count` buckets: the pool of blocks `first_fit` scans in order. -/
def bucketChains (s : AllocState) (fuel : Nat) : Nat → Nat → List Nat
  | 0, _ => []
  | Nat.succ c, i => chainList s fuel (s.lists i) ++ bucketChains s fuel c (i + 1)

/-! ## Concrete reachable states

The scenarios below execute the allocator from `initState` with a
realistic `sbrk` oracle: the kernel break at 16384, above the static
array `[4096, 8192)`, so the first heap growth is non-contiguous and
the gap region is `[8192, 16384)`.

`gapS…`: fill the static heap with one 4080-byte allocation (total
4096, exactly the array), then allocate 100 bytes, which goes through
`sbrk_allocation`; the new block sits at 16384, the start of the sbrk
region.  Freeing it exercises `coalesce` on a block whose preceding
word lies inside the gap. -/

/-- State after `my_malloc(4080)` from the initial state: the static
heap `[4096, 8192)` is one used block, `heap_top = heap_end = 8192`. -/
def gapS1 : AllocState := (my_malloc (initState [some 16384] []) 4080 100).1

/-- State after the further `my_malloc(100)`: `sbrk` returned the
non-contiguous address 16384, no slack was rescued (`remaining = 0`),
and the 120-byte block at 16384 is in use; `heap_top = 16504`,
`heap_end = 20480`, gap `[8192, 16384)`. -/
def gapS2 : AllocState := (my_malloc gapS1 100 100).1

/-- The state seen by `coalesce` inside `my_free(16392)`: the block at
16384 has been marked free and its footer refreshed (the first two
statements of the non-mmap branch of `my_free`). -/
def gapPre : AllocState :=
  let s1 := set_used gapS2 16384 false
  writeW s1 (get_footer s1 16384) (s1.mem 16384)

/-- State after `my_free(16392)`.  The gap word at 16376 read 0, so
`coalesce` mistook the freed block for its own previous neighbour and
doubled its size to 240. -/
def gapS3 : AllocState := my_free gapS2 16392

/-- State after a further `my_malloc(150)`: the corrupted 240-byte
block is split into a 168-byte used block at 16384 and a 72-byte free
tail at 16552 (which overlaps `heap_top = 16504`). -/
def gapS4 : AllocState := (my_malloc gapS3 150 100).1

/-- State after a further `my_malloc(100)`: no free block fits, so a
120-byte block is carved at `heap_top = 16504`; its footer word at
16616 overwrites the footer of the free block at 16552. -/
def gapS5 : AllocState := (my_malloc gapS4 100 100).1

/-- Adjacency scenario, step 1: `my_malloc(24)` carves a 40-byte block
at 4096. -/
def adjS1 : AllocState := (my_malloc (initState [some 16384] []) 24 100).1

/-- Step 2: `my_malloc(24)` carves a 40-byte block at 4136. -/
def adjS2 : AllocState := (my_malloc adjS1 24 100).1

/-- Step 3: `my_free(4144)` frees the block at 4136 (no neighbour to
merge: the next block is at `heap_top`, the previous one is used). -/
def adjS3 : AllocState := my_free adjS2 4144

/-- Step 4: `my_malloc(4080)` finds no fit and calls
`sbrk_allocation`, which rescues the slack `[4176, 8192)` as a 4016-
byte free block — physically adjacent to the free block at 4136 —
and carves the request at 16384. -/
def adjS4 : AllocState := (my_malloc adjS3 4080 100).1

/-- The state seen by `coalesce` inside `my_free(4104)`. -/
def adjPre : AllocState :=
  let s1 := set_used adjS4 4096 false
  writeW s1 (get_footer s1 4096) (s1.mem 4096)

/-- Step 5: `my_free(4104)` frees the block at 4096; `coalesce` merges
it with the free block at 4136 into an 80-byte free block, whose next
physical neighbour 4176 (the rescued slack block) is also free. -/
def adjS5 : AllocState := my_free adjS4 4104

/-- Large-allocation scenario: `my_malloc(131072)` with the mmap
oracle granting a page at 1048576; the result is the payload 1048584
of an mmap block of stored size 135168. -/
def mmapS1 : AllocState × Option Nat :=
  my_malloc (initState [] [some 1048576]) 131072 100

/-- A tiny state for exercising `split_block` directly: one free
96-byte block at 4096 in an otherwise pristine state. -/
def splitWit : AllocState := setup_block (initState [] []) 4096 96 false

/-- Well-formedness assumptions for a `my_malloc` call: the wavefront
is word-aligned and within the owned region; every block reachable in
a free-list chain is word-aligned, and its stored `prev_free`,
`next_free` links and the bucket heads do not alias its own header
(the properties every properly maintained doubly-linked segregated
list has); the pending `sbrk` grant, if any, is word-aligned and at or
above `heap_end` (the kernel break grows upward, algorithms.h lines
40-44); the pending `mmap` grant, if any, is word-aligned (kernel
mappings are page-aligned). -/
def C3Hyp (s : AllocState) (fuel : Nat) : Prop :=
  s.heapTop % 8 = 0 ∧
  s.heapTop ≤ s.heapEnd ∧
  (∀ i, i < NUM_LISTS → ∀ b ∈ chainList s fuel (s.lists i),
    b % 8 = 0 ∧
    (s.mem (b + 16) = 0 ∨ s.mem (b + 16) + 8 ≠ b) ∧
    (s.mem (b + 8) = 0 ∨ s.mem (b + 8) + 16 ≠ b) ∧
    (∀ j, j < NUM_LISTS → s.lists j = 0 ∨ s.lists j + 16 ≠ b)) ∧
  (∀ r : Nat, ∀ rest : List (Option Nat),
    s.sbrkRets = some r :: rest → r % 8 = 0 ∧ s.heapEnd ≤ r) ∧
  (∀ a : Nat, ∀ rest : List (Option Nat),
    s.mmapRets = some a :: rest → a % 8 = 0)

/-! ## Basic lemmas about the embedding -/

theorem writeW_mem (s : AllocState) (a v x : Nat) :
    (writeW s a v).mem x = if x = a then v else s.mem x := rfl

theorem writeW_heapStart (s : AllocState) (a v : Nat) :
    (writeW s a v).heapStart = s.heapStart := rfl

theorem writeW_heapTop (s : AllocState) (a v : Nat) :
    (writeW s a v).heapTop = s.heapTop := rfl

theorem writeW_heapEnd (s : AllocState) (a v : Nat) :
    (writeW s a v).heapEnd = s.heapEnd := rfl

theorem writeW_lists (s : AllocState) (a v : Nat) :
    (writeW s a v).lists = s.lists := rfl

theorem writeW_sbrkRets (s : AllocState) (a v : Nat) :
    (writeW s a v).sbrkRets = s.sbrkRets := rfl

theorem writeW_mmapRets (s : AllocState) (a v : Nat) :
    (writeW s a v).mmapRets = s.mmapRets := rfl

theorem writeW_mmapTracked (s : AllocState) (a v : Nat) :
    (writeW s a v).mmapTracked = s.mmapTracked := rfl

theorem writeW_unmaps (s : AllocState) (a v : Nat) :
    (writeW s a v).unmaps = s.unmaps := rfl

theorem get_size_writeW_ne (s : AllocState) (a v b : Nat) (h : b ≠ a) :
    get_size (writeW s a v) b = get_size s b := by
  simp [get_size, writeW_mem, h]

/-- `set_used` never changes the size bits of the header. -/
theorem get_size_set_used_self (s : AllocState) (b : Nat) (u : Bool) :
    get_size (set_used s b u) b = get_size s b := by
  unfold get_size set_used writeW
  dsimp only
  rw [if_pos rfl]
  split
  · split <;> omega
  · omega

theorem get_size_set_used_ne (s : AllocState) (b : Nat) (u : Bool) (x : Nat)
    (h : x ≠ b) : get_size (set_used s b u) x = get_size s x := by
  unfold set_used
  exact get_size_writeW_ne _ _ _ _ h

theorem set_header_mem_self (s : AllocState) (b sz : Nat) (u : Bool) :
    (set_header s b sz u).mem b = sz / 8 * 8 + (if u then 1 else 0) := by
  unfold set_header
  rw [writeW_mem, if_pos rfl]

/-- `setup_block` rewrites the header and footer; it is the pair of
word stores at `b` and at `b + (size & SIZE_MASK) - 8`. -/
theorem setup_block_eq (s : AllocState) (b sz : Nat) (u : Bool) :
    setup_block s b sz u =
      writeW (set_header s b sz u) (b + sz / 8 * 8 - 8)
        (sz / 8 * 8 + (if u then 1 else 0)) := by
  have h0 : setup_block s b sz u =
      writeW (set_header s b sz u)
        (get_footer (set_header s b sz u) b)
        ((set_header s b sz u).mem b) := rfl
  have h2 : get_footer (set_header s b sz u) b = b + sz / 8 * 8 - 8 := by
    unfold get_footer get_size
    rw [set_header_mem_self]
    cases u <;> simp <;> omega
  rw [h0, h2, set_header_mem_self]

theorem get_size_setup_self (s : AllocState) (b sz : Nat) (u : Bool) :
    get_size (setup_block s b sz u) b = sz / 8 * 8 := by
  rw [setup_block_eq]
  unfold get_size
  rw [writeW_mem]
  split
  · cases u <;> simp <;> omega
  · rw [set_header_mem_self]
    cases u <;> simp <;> omega

theorem mem_setup_other (s : AllocState) (b sz : Nat) (u : Bool) (x : Nat)
    (h1 : x ≠ b) (h2 : x ≠ b + sz / 8 * 8 - 8) :
    (setup_block s b sz u).mem x = s.mem x := by
  rw [setup_block_eq]
  unfold set_header
  simp [writeW_mem, h1, h2]

theorem get_size_setup_other (s : AllocState) (b sz : Nat) (u : Bool) (x : Nat)
    (h1 : x ≠ b) (h2 : x ≠ b + sz / 8 * 8 - 8) :
    get_size (setup_block s b sz u) x = get_size s x := by
  unfold get_size
  rw [mem_setup_other s b sz u x h1 h2]

theorem setup_heapTop (s : AllocState) (b sz : Nat) (u : Bool) :
    (setup_block s b sz u).heapTop = s.heapTop := rfl

theorem setup_heapEnd (s : AllocState) (b sz : Nat) (u : Bool) :
    (setup_block s b sz u).heapEnd = s.heapEnd := rfl

theorem setup_heapStart (s : AllocState) (b sz : Nat) (u : Bool) :
    (setup_block s b sz u).heapStart = s.heapStart := rfl

theorem setup_lists (s : AllocState) (b sz : Nat) (u : Bool) :
    (setup_block s b sz u).lists = s.lists := rfl

theorem setup_mmapTracked (s : AllocState) (b sz : Nat) (u : Bool) :
    (setup_block s b sz u).mmapTracked = s.mmapTracked := rfl

theorem setup_mmapRets (s : AllocState) (b sz : Nat) (u : Bool) :
    (setup_block s b sz u).mmapRets = s.mmapRets := rfl

theorem setup_sbrkRets (s : AllocState) (b sz : Nat) (u : Bool) :
    (setup_block s b sz u).sbrkRets = s.sbrkRets := rfl

theorem setup_unmaps (s : AllocState) (b sz : Nat) (u : Bool) :
    (setup_block s b sz u).unmaps = s.unmaps := rfl

theorem insert_heapTop (s : AllocState) (b : Nat) :
    (insert_into_free_list s b).heapTop = s.heapTop := by
  unfold insert_into_free_list
  dsimp only
  split <;> rfl

theorem insert_heapEnd (s : AllocState) (b : Nat) :
    (insert_into_free_list s b).heapEnd = s.heapEnd := by
  unfold insert_into_free_list
  dsimp only
  split <;> rfl

theorem insert_heapStart (s : AllocState) (b : Nat) :
    (insert_into_free_list s b).heapStart = s.heapStart := by
  unfold insert_into_free_list
  dsimp only
  split <;> rfl

theorem insert_mmapTracked (s : AllocState) (b : Nat) :
    (insert_into_free_list s b).mmapTracked = s.mmapTracked := by
  unfold insert_into_free_list
  dsimp only
  split <;> rfl

theorem insert_mmapRets (s : AllocState) (b : Nat) :
    (insert_into_free_list s b).mmapRets = s.mmapRets := by
  unfold insert_into_free_list
  dsimp only
  split <;> rfl

theorem insert_sbrkRets (s : AllocState) (b : Nat) :
    (insert_into_free_list s b).sbrkRets = s.sbrkRets := by
  unfold insert_into_free_list
  dsimp only
  split <;> rfl

theorem insert_unmaps (s : AllocState) (b : Nat) :
    (insert_into_free_list s b).unmaps = s.unmaps := by
  unfold insert_into_free_list
  dsimp only
  split <;> rfl

theorem insert_lists_apply (s : AllocState) (b j : Nat) :
    (insert_into_free_list s b).lists j =
      if j = get_list_index (get_size s b) then b else s.lists j := by
  unfold insert_into_free_list
  dsimp only
  split <;> first | rfl | (split <;> rfl)

/-- The three word stores of `insert_into_free_list` hit `b + 8`,
`b + 16` and (when the old head is non-null) `head + 16`. -/
theorem insert_mem_other (s : AllocState) (b x : Nat)
    (h1 : x ≠ b + 8) (h2 : x ≠ b + 16)
    (h3 : s.lists (get_list_index (get_size s b)) = 0 ∨
          x ≠ s.lists (get_list_index (get_size s b)) + 16) :
    (insert_into_free_list s b).mem x = s.mem x := by
  unfold insert_into_free_list
  dsimp only
  split
  · rcases h3 with h3 | h3
    · simp_all
    · simp [writeW_mem, h1, h2, h3]
  · simp [writeW_mem, h1, h2]

theorem remove_heapTop (s : AllocState) (b : Nat) :
    (remove_from_free_list s b).heapTop = s.heapTop := by
  unfold remove_from_free_list
  dsimp only
  split <;> split <;> rfl

theorem remove_heapEnd (s : AllocState) (b : Nat) :
    (remove_from_free_list s b).heapEnd = s.heapEnd := by
  unfold remove_from_free_list
  dsimp only
  split <;> split <;> rfl

theorem remove_heapStart (s : AllocState) (b : Nat) :
    (remove_from_free_list s b).heapStart = s.heapStart := by
  unfold remove_from_free_list
  dsimp only
  split <;> split <;> rfl

theorem remove_mmapTracked (s : AllocState) (b : Nat) :
    (remove_from_free_list s b).mmapTracked = s.mmapTracked := by
  unfold remove_from_free_list
  dsimp only
  split <;> split <;> rfl

theorem remove_mmapRets (s : AllocState) (b : Nat) :
    (remove_from_free_list s b).mmapRets = s.mmapRets := by
  unfold remove_from_free_list
  dsimp only
  split <;> split <;> rfl

theorem remove_sbrkRets (s : AllocState) (b : Nat) :
    (remove_from_free_list s b).sbrkRets = s.sbrkRets := by
  unfold remove_from_free_list
  dsimp only
  split <;> split <;> rfl

theorem remove_unmaps (s : AllocState) (b : Nat) :
    (remove_from_free_list s b).unmaps = s.unmaps := by
  unfold remove_from_free_list
  dsimp only
  split <;> split <;> rfl

/-- The word stores of `remove_from_free_list` hit `b + 8`, `b + 16`,
the predecessor's `next_free` slot and the successor's `prev_free`
slot; any other address is untouched. -/
theorem remove_mem_other (s : AllocState) (b x : Nat)
    (hx1 : x ≠ b + 8) (hx2 : x ≠ b + 16)
    (hpf : s.mem (b + 16) = 0 ∨ x ≠ s.mem (b + 16) + 8)
    (hnf : s.mem (b + 8) = 0 ∨ x ≠ s.mem (b + 8) + 16) :
    (remove_from_free_list s b).mem x = s.mem x := by
  unfold remove_from_free_list
  dsimp only
  by_cases hc1 : s.mem (b + 16) = 0
  · by_cases hc2 : s.mem (b + 8) = 0
    · simp [writeW_mem, hx1, hx2, hc1, hc2]
    · rcases hnf with h | h
      · exact absurd h hc2
      · simp [writeW_mem, hx1, hx2, hc1, hc2, h]
  · rcases hpf with h | h
    · exact absurd h hc1
    · by_cases hc2 : s.mem (b + 8) = 0
      · simp [writeW_mem, hx1, hx2, hc1, hc2, h, ite_self]
      · rcases hnf with h2 | h2
        · exact absurd h2 hc2
        · simp [writeW_mem, hx1, hx2, hc1, hc2, h, h2, ite_self]

/-- Under the no-aliasing side conditions, unlinking a block does not
change its own header, hence not its stored size. -/
theorem remove_get_size_self (s : AllocState) (b : Nat)
    (hpf : s.mem (b + 16) = 0 ∨ s.mem (b + 16) + 8 ≠ b)
    (hnf : s.mem (b + 8) = 0 ∨ s.mem (b + 8) + 16 ≠ b) :
    get_size (remove_from_free_list s b) b = get_size s b := by
  unfold get_size
  rw [remove_mem_other s b b (by omega) (by omega)
    (hpf.imp id fun h => Ne.symm h) (hnf.imp id fun h => Ne.symm h)]

/-! ## Arithmetic facts about `align`, `mallocTotal`, `get_list_index` -/

theorem align_mod8 (n : Nat) : align n % 8 = 0 := by
  unfold align wordSize; omega

theorem le_align (n : Nat) : n ≤ align n := by
  unfold align wordSize; omega

theorem align_le (n : Nat) : align n ≤ n + 7 := by
  unfold align wordSize; omega

theorem mallocTotal_mod8 (n : Nat) : mallocTotal n % 8 = 0 := by
  have h := align_mod8 n
  unfold mallocTotal sizeofBlock
  dsimp only
  split <;> omega

theorem mallocTotal_lb (n : Nat) : 32 ≤ mallocTotal n := by
  unfold mallocTotal sizeofBlock
  dsimp only
  split <;> omega

theorem n16_le_mallocTotal (n : Nat) : n + 16 ≤ mallocTotal n := by
  have h := le_align n
  unfold mallocTotal sizeofBlock
  dsimp only
  split <;> omega

theorem align_le_mallocTotal (n : Nat) : align n ≤ mallocTotal n := by
  unfold mallocTotal sizeofBlock
  dsimp only
  split <;> omega

theorem get_list_index_le (sz : Nat) : get_list_index sz ≤ 5 := by
  unfold get_list_index
  repeat' split
  all_goals omega

/-! ## The structure of `first_fit` -/

/-- The inner loop of `first_fit` returns exactly the first chain
element whose stored size is sufficient. -/
theorem ffWalk_eq_find (s : AllocState) (size : Nat) :
    ∀ fuel cur, ffWalk s size fuel cur =
      (chainList s fuel cur).find? (fun b => decide (size ≤ get_size s b)) := by
  intro fuel
  induction fuel with
  | zero => intro cur; rfl
  | succ f ih =>
    intro cur
    unfold ffWalk chainList
    by_cases h0 : cur = 0
    · simp [h0]
    · rw [if_neg h0, if_neg h0]
      by_cases hs : size ≤ get_size s cur
      · simp [List.find?, hs]
      · simp [List.find?, hs, ih]

/-- The bucket loop of `first_fit` searches the concatenation of the
remaining chains. -/
theorem ffFrom_eq (s : AllocState) (size fuel : Nat) :
    ∀ count i, ffFrom s size fuel count i =
      (bucketChains s fuel count i).find?
        (fun b => decide (size ≤ get_size s b)) := by
  intro count
  induction count with
  | zero => intro i; rfl
  | succ c ih =>
    intro i
    unfold ffFrom bucketChains
    rw [List.find?_append, ffWalk_eq_find]
    cases h : (chainList s fuel (s.lists i)).find?
        (fun b => decide (size ≤ get_size s b)) with
    | none => simp [Option.or, ih]
    | some b => simp [Option.or]

theorem first_fit_eq_find (s : AllocState) (size fuel : Nat) :
    first_fit s size fuel =
      (bucketChains s fuel (NUM_LISTS - get_list_index size)
        (get_list_index size)).find?
        (fun b => decide (size ≤ get_size s b)) := by
  unfold first_fit
  exact ffFrom_eq s size fuel _ _

/-- A successful `first_fit` returns a block of the searched chains
whose stored size is at least the request. -/
theorem first_fit_some (s : AllocState) (size fuel b : Nat)
    (h : first_fit s size fuel = some b) :
    b ∈ bucketChains s fuel (NUM_LISTS - get_list_index size)
        (get_list_index size) ∧ size ≤ get_size s b := by
  rw [first_fit_eq_find] at h
  refine ⟨List.mem_of_find?_eq_some h, ?_⟩
  have := List.find?_some h
  simpa using this

/-- Membership in `bucketChains` comes from membership in a single
bucket's chain. -/
theorem mem_bucketChains (s : AllocState) (fuel : Nat) :
    ∀ count i x, x ∈ bucketChains s fuel count i →
      ∃ j, i ≤ j ∧ j < i + count ∧ x ∈ chainList s fuel (s.lists j) := by
  intro count
  induction count with
  | zero => intro i x hx; cases hx
  | succ c ih =>
    intro i x hx
    unfold bucketChains at hx
    rcases List.mem_append.mp hx with hx | hx
    · exact ⟨i, Nat.le_refl i, by omega, hx⟩
    · rcases ih (i + 1) x hx with ⟨j, h1, h2, h3⟩
      exact ⟨j, by omega, by omega, h3⟩

/-- For a state whose free lists are all empty — such as the initial
state — `first_fit` fails. -/
theorem ffWalk_zero (s : AllocState) (size fuel : Nat) :
    ffWalk s size fuel 0 = none := by
  cases fuel <;> rfl

theorem first_fit_of_empty (s : AllocState) (size fuel : Nat)
    (h : ∀ i, s.lists i = 0) : first_fit s size fuel = none := by
  unfold first_fit
  generalize get_list_index size = i0
  generalize NUM_LISTS - i0 = count
  induction count generalizing i0 with
  | zero => rfl
  | succ c ih =>
    unfold ffFrom
    rw [h i0, ffWalk_zero]
    exact ih (i0 + 1)

/-! ## The claims -/

/-- Claim C9: `my_malloc(0)` returns the null pointer and leaves the
whole allocator state unchanged, and `my_free(NULL)` is a no-op that
leaves the whole allocator state unchanged.  This holds for every
state and every fuel bound, directly from the leading guards of
`my_malloc` and `my_free` in heap_allocator.h. -/
theorem malloc_zero_and_free_null_noop (s : AllocState) (fuel : Nat) :
    my_malloc s 0 fuel = (s, none) ∧ my_free s 0 = s :=
  ⟨rfl, rfl⟩

/-- Claim C10: freeing a block whose header carries the mmap flag only
removes the matching registry record and unmaps the mapping at the
block's start with the block's stored size: `heap_top`, `heap_end`,
the memory words, and every segregated free-list head are left
untouched. -/
theorem my_free_mmap_frame (s : AllocState) (p : Nat) (hp : p ≠ 0)
    (hm : is_mmap s (get_block_from_payload p) = true) :
    my_free s p = mmap_free s (get_block_from_payload p) ∧
    (my_free s p).heapTop = s.heapTop ∧
    (my_free s p).heapEnd = s.heapEnd ∧
    (my_free s p).lists = s.lists ∧
    (my_free s p).mem = s.mem ∧
    (my_free s p).mmapTracked =
      mmap_track_remove_list s.mmapTracked (get_block_from_payload p) ∧
    (my_free s p).unmaps =
      s.unmaps ++ [(get_block_from_payload p,
        get_size s (get_block_from_payload p))] := by
  have h1 : my_free s p = mmap_free s (get_block_from_payload p) := by
    unfold my_free
    rw [if_neg hp, if_pos hm]
  refine ⟨h1, ?_, ?_, ?_, ?_, ?_, ?_⟩ <;> rw [h1] <;> rfl

/-- Claim C10 witness: the concrete mmap block of `mmapS1` (stored
size 135168 at address 1048576), freed through `my_free`. -/
theorem my_free_mmap_frame_witness :
    (1048584 : Nat) ≠ 0 ∧
    is_mmap mmapS1.1 (get_block_from_payload 1048584) = true ∧
    (my_free mmapS1.1 1048584).heapTop = mmapS1.1.heapTop ∧
    (my_free mmapS1.1 1048584).mmapTracked =
      mmap_track_remove_list mmapS1.1.mmapTracked
        (get_block_from_payload 1048584) ∧
    (my_free mmapS1.1 1048584).unmaps =
      mmapS1.1.unmaps ++ [(get_block_from_payload 1048584,
        get_size mmapS1.1 (get_block_from_payload 1048584))] := by
  have h := my_free_mmap_frame mmapS1.1 1048584 (by decide) (by decide)
  exact ⟨by decide, by decide, h.2.1, h.2.2.2.2.2.1, h.2.2.2.2.2.2⟩

/-- Claim C6: `first_fit(total)` starts at the bucket classifying the
request (`get_list_index`, cutpoints 32, 64, 128, 256, 512 inclusive),
scans each list front to back following `next_free`, returns the first
block whose stored size is at least the request, continues into every
larger-index bucket on exhaustion, and returns null exactly when no
block in the chains of the buckets at or above the start index fits.
Stated for the fuel-truncated chains, for every state, request and
fuel bound. -/
theorem first_fit_bucket_scan (s : AllocState) (size fuel : Nat) :
    first_fit s size fuel =
      (bucketChains s fuel (NUM_LISTS - get_list_index size)
        (get_list_index size)).find?
        (fun b => decide (size ≤ get_size s b)) ∧
    (first_fit s size fuel = none ↔
      ∀ b ∈ bucketChains s fuel (NUM_LISTS - get_list_index size)
          (get_list_index size), get_size s b < size) := by
  refine ⟨first_fit_eq_find s size fuel, ?_⟩
  rw [first_fit_eq_find, List.find?_eq_none]
  constructor
  · intro h b hb
    have := h b hb
    simpa [Nat.not_le] using this
  · intro h b hb
    simpa [Nat.not_le] using h b hb

/-- Claim C1 (refuting theorem): the neighbour-check phase of
`coalesce`, run by `my_free(16392)` on the reachable state `gapS2`,
dereferences the word at 16376 — an address inside the gap
`[8192, 16384)` between the exhausted static heap (`heap_top =
heap_end = 8192` in `gapS1`) and the non-contiguous sbrk region
starting at 16384.  The guard `block != heap_start &&
(unsigned char*)block - sizeof(Footer) >= (unsigned char*)heap_start`
of algorithms.h lines 103-110 does not exclude the gap, contradicting
the specification's rule that addresses inside the gap are never
dereferenced. -/
theorem coalesce_reads_gap_word :
    gapS1.heapTop = 8192 ∧ gapS1.heapEnd = 8192 ∧
    (my_malloc gapS1 100 100).2 = some 16392 ∧
    gapS2.heapTop = 16504 ∧ gapS2.heapEnd = 20480 ∧
    my_free gapS2 16392 =
      insert_into_free_list (coalesce gapPre 16384).1
        (coalesce gapPre 16384).2 ∧
    16376 ∈ coalesceCheckReads gapPre 16384 ∧
    8192 ≤ 16376 ∧ (16376 : Nat) < 16384 :=
  ⟨by decide, by decide, by decide, by decide, by decide, rfl,
   by decide, by decide, by decide⟩

/-- Claim C7 (refuting theorem): in the reachable state `gapS5` the
sbrk-region walk of the heap (the traversal of debug_utilities.h)
visits the free block at 16552, whose header word is 72 but whose
footer word — the word at `get_footer`, address 16616 — is 121: a
walkable non-mmap block whose footer differs from its header.  The
state arises from the gap-read corruption of claim C1: `coalesce`
doubled the size of the block at 16384, and the later carve of a
120-byte block at `heap_top = 16504` wrote its footer over the
overlapping free block's footer. -/
theorem walkable_footer_header_mismatch :
    walkBlocks gapS5 100 16384 gapS5.heapTop = [16384, 16552] ∧
    is_used gapS5 16552 = false ∧
    gapS5.mem 16552 = 72 ∧
    get_footer gapS5 16552 = 16616 ∧
    gapS5.mem 16616 = 121 ∧
    gapS5.mem (get_footer gapS5 16552) ≠ gapS5.mem 16552 := by
  refine ⟨by decide, by decide, by decide, by decide, by decide, by decide⟩

/-- Claim C2 (counterexample): in the reachable state `adjS4`, freeing
the payload 4104 produces — after coalescing — the free block at 4096
of size 80 whose next physical neighbour 4176 is itself free: the
walkable static region `[4096, 8192)` holds exactly the two adjacent
free blocks 4096 and 4176, and their shared boundary 4176 is neither
the region boundary nor a gap edge (the gap is `[8192, 16384)`).  The
adjacency was created by `sbrk_allocation`, which inserts the rescued
slack block 4176 without coalescing it with its free predecessor. -/
theorem adjacent_free_blocks_after_free :
    my_free adjS4 4104 =
      insert_into_free_list (coalesce adjPre 4096).1
        (coalesce adjPre 4096).2 ∧
    (coalesce adjPre 4096).2 = 4096 ∧
    is_used adjS5 4096 = false ∧
    get_size adjS5 4096 = 80 ∧
    get_next_physical_block adjS5 4096 = 4176 ∧
    4176 < adjS5.heapTop ∧
    is_used adjS5 4176 = false ∧
    get_size adjS5 4176 = 4016 ∧
    walkBlocks adjS5 100 4096 8192 = [4096, 4176] ∧
    adjS5.heapStart = 4096 ∧
    (4176 : Nat) ≠ 8192 ∧ (4176 : Nat) ≠ 16384 :=
  ⟨rfl, by decide, by decide, by decide, by decide, by decide, by decide,
   by decide, by decide, by decide, by decide, by decide⟩

/-- Claim C2 (amended): the coalescing step of `my_free` absorbs
exactly the neighbours its entry checks identify as free — when the
next physical block lies below `heap_top` and is free (and the
previous-block check fails), the returned block is the freed block
extended to the end of that neighbour; when the previous-block check
identifies a free predecessor (and the next check fails), the returned
block is that predecessor extended to the end of the freed block.  The
`no two adjacent free blocks` form of the claim is false
(`adjacent_free_blocks_after_free`): the slack block that
`sbrk_allocation` rescues is inserted without coalescing, so the
resulting merged block can itself border another free block.  The
side conditions are the 8-alignment of the stored sizes and the
non-aliasing of the unlink stores, which hold for every properly
formed free-list block. -/
theorem coalesce_absorbs_free_neighbor (s : AllocState) (b : Nat)
    (hb8 : get_size s b % 8 = 0) :
    (coalesce_next_ok s b = true →
     coalesce_prev_ok s b = none →
     get_size s (get_next_physical_block s b) % 8 = 0 →
     (s.mem (get_next_physical_block s b + 16) = 0 ∨
      s.mem (get_next_physical_block s b + 16) + 8 ≠
        get_next_physical_block s b) →
     (s.mem (get_next_physical_block s b + 8) = 0 ∨
      s.mem (get_next_physical_block s b + 8) + 16 ≠
        get_next_physical_block s b) →
     (coalesce s b).2 = b ∧
     b + get_size (coalesce s b).1 b =
       get_next_physical_block s b +
         get_size s (get_next_physical_block s b)) ∧
    (coalesce_next_ok s b = false →
     ∀ pb, coalesce_prev_ok s b = some pb →
     get_size s pb % 8 = 0 →
     pb + get_size s pb = b →
     (s.mem (pb + 16) = 0 ∨ s.mem (pb + 16) + 8 ≠ pb) →
     (s.mem (pb + 8) = 0 ∨ s.mem (pb + 8) + 16 ≠ pb) →
     (coalesce s b).2 = pb ∧
     pb + get_size (coalesce s b).1 pb = b + get_size s b) := by
  have hnb : get_next_physical_block s b = b + get_size s b := rfl
  constructor
  · intro h1 h2 hn8 hpf hnf
    have hc : coalesce s b =
        (setup_block (remove_from_free_list s (get_next_physical_block s b)) b
          (get_size s b +
            get_size (remove_from_free_list s (get_next_physical_block s b))
              (get_next_physical_block s b)) false, b) := by
      unfold coalesce
      rw [h1, h2]
      rfl
    rw [hc]
    refine ⟨rfl, ?_⟩
    dsimp only
    rw [get_size_setup_self,
      remove_get_size_self s (get_next_physical_block s b) hpf hnf]
    rw [hnb] at hn8 ⊢
    omega
  · intro h1 pb h2 hp8 hfoot hpf hnf
    have hc : coalesce s b =
        (setup_block (remove_from_free_list s pb) pb
          (get_size s b + get_size (remove_from_free_list s pb) pb)
          false, pb) := by
      unfold coalesce
      rw [h1, h2]
      rfl
    rw [hc]
    refine ⟨rfl, ?_⟩
    dsimp only
    rw [get_size_setup_self, remove_get_size_self s pb hpf hnf]
    omega

theorem get_size_insert_other (s : AllocState) (b x : Nat)
    (hx1 : x ≠ b + 8) (hx2 : x ≠ b + 16)
    (h3 : s.lists (get_list_index (get_size s b)) = 0 ∨
          x ≠ s.lists (get_list_index (get_size s b)) + 16) :
    get_size (insert_into_free_list s b) x = get_size s x := by
  unfold get_size
  rw [insert_mem_other s b x hx1 hx2 h3]

theorem get_size_set_heapTop (X : AllocState) (v x : Nat) :
    get_size { X with heapTop := v } x = get_size X x := rfl

theorem get_size_set_heapTopEnd (X : AllocState) (v w x : Nat) :
    get_size { X with heapTop := v, heapEnd := w } x = get_size X x := rfl

/-- Claim C4: no operation creates a non-mmap block smaller than
`min_block_size = sizeof(Block) + sizeof(Footer) = 32` bytes:
`my_malloc` bumps every non-zero request's total to at least that
size; `split_block` leaves the block whole when less than
`min_block_size` would remain, and when it does split, the carved
tail's stored size is at least `min_block_size`; `sbrk_allocation`
creates the slack-rescue block only when the slack is at least
`min_block_size`, and then that block's stored size is at least
`min_block_size`.  The list-head side conditions only exclude aliasing
of the single store `head->prev_free = block` with the new block's
header and hold in every properly formed state. -/
theorem no_undersized_block_created :
    (∀ n, 0 < n → sizeofBlock + 8 ≤ mallocTotal n) ∧
    (∀ s : AllocState, ∀ b need : Nat,
      get_size s b < need + (sizeofBlock + 8) →
      split_block s b need = s) ∧
    (∀ s : AllocState, ∀ b need : Nat,
      need + (sizeofBlock + 8) ≤ get_size s b →
      (s.lists (get_list_index ((get_size s b - need) / 8 * 8)) = 0 ∨
       s.lists (get_list_index ((get_size s b - need) / 8 * 8)) + 16 ≠
         b + need) →
      sizeofBlock + 8 ≤ get_size (split_block s b need) (b + need)) ∧
    (∀ s : AllocState, ∀ total r : Nat, ∀ rest : List (Option Nat),
      s.sbrkRets = some r :: rest →
      r ≠ s.heapEnd →
      s.heapEnd ≤ r →
      s.heapTop + (sizeofBlock + 8) ≤ s.heapEnd →
      8 ≤ total →
      (s.lists (get_list_index ((s.heapEnd - s.heapTop) / 8 * 8)) = 0 ∨
       s.lists (get_list_index ((s.heapEnd - s.heapTop) / 8 * 8)) + 16 ≠
         s.heapTop) →
      sizeofBlock + 8 ≤ get_size (sbrk_allocation s total).1 s.heapTop) := by
  refine ⟨?_, ?_, ?_, ?_⟩
  · intro n hn
    have := mallocTotal_lb n
    simp only [sizeofBlock]
    omega
  · intro s b need h
    unfold split_block
    dsimp only
    rw [if_neg (by omega)]
  · intro s b need hsplit hhead
    unfold split_block
    dsimp only
    rw [if_pos hsplit]
    have hlists :
        (setup_block (setup_block s b need true) (b + need)
          (get_size s b - need) false).lists = s.lists := rfl
    have hsz : get_size (setup_block (setup_block s b need true) (b + need)
        (get_size s b - need) false) (b + need) =
        (get_size s b - need) / 8 * 8 := get_size_setup_self _ _ _ _
    rw [get_size_insert_other _ _ _ (by omega) (by omega)
      (by rw [hlists, hsz]; exact hhead.imp id fun h => Ne.symm h)]
    rw [hsz]
    simp only [sizeofBlock] at hsplit ⊢
    omega
  · intro s total r rest hr hne hge hroom htot hhead
    have hlt : s.heapTop + 32 ≤ s.heapEnd := by
      simp only [sizeofBlock] at hroom; omega
    unfold sbrk_allocation
    rw [hr]
    dsimp only
    rw [if_pos hne,
      if_pos (show sizeofBlock + 8 ≤ s.heapEnd - s.heapTop by
        simp only [sizeofBlock]; omega)]
    rw [get_size_set_heapTop]
    rw [get_size_setup_other _ r total true s.heapTop (by omega)
      (by have : 8 ≤ total / 8 * 8 := by omega
          omega)]
    rw [get_size_set_heapTopEnd]
    have hlists : (setup_block { s with sbrkRets := rest } s.heapTop
        (s.heapEnd - s.heapTop) false).lists = s.lists := rfl
    have hsz : get_size (setup_block { s with sbrkRets := rest } s.heapTop
        (s.heapEnd - s.heapTop) false) s.heapTop =
        (s.heapEnd - s.heapTop) / 8 * 8 := get_size_setup_self _ _ _ _
    rw [get_size_insert_other _ _ _ (by omega) (by omega)
      (by rw [hlists, hsz]
          rcases hhead with h | h
          · exact Or.inl h
          · exact Or.inr (Ne.symm h))]
    rw [hsz]
    simp only [sizeofBlock]
    omega

/-- Claim C4 witness: the three creation sites at concrete inputs —
the total for a 1-byte request, a split of the 96-byte block of
`splitWit` with 48 bytes needed, and the slack rescue of the first
non-contiguous growth from the initial state. -/
theorem no_undersized_block_created_witness :
    sizeofBlock + 8 ≤ mallocTotal 1 ∧
    split_block splitWit 4096 72 = splitWit ∧
    sizeofBlock + 8 ≤ get_size (split_block splitWit 4096 48) (4096 + 48) ∧
    sizeofBlock + 8 ≤
      get_size (sbrk_allocation (initState [some 16384] []) 8).1
        (initState [some 16384] []).heapTop := by
  have h := no_undersized_block_created
  refine ⟨h.1 1 (by decide), ?_, ?_, ?_⟩
  · exact h.2.1 splitWit 4096 72 (by decide)
  · exact h.2.2.1 splitWit 4096 48 (by decide) (by decide)
  · exact h.2.2.2 (initState [some 16384] []) 8 16384 [] (by decide)
      (by decide) (by decide) (by decide) (by decide) (by decide)

theorem split_mmapTracked (s : AllocState) (b need : Nat) :
    (split_block s b need).mmapTracked = s.mmapTracked := by
  unfold split_block
  dsimp only
  split
  · rw [insert_mmapTracked, setup_mmapTracked, setup_mmapTracked]
  · rfl

theorem split_mmapRets (s : AllocState) (b need : Nat) :
    (split_block s b need).mmapRets = s.mmapRets := by
  unfold split_block
  dsimp only
  split
  · rw [insert_mmapRets, setup_mmapRets, setup_mmapRets]
  · rfl

theorem split_unmaps (s : AllocState) (b need : Nat) :
    (split_block s b need).unmaps = s.unmaps := by
  unfold split_block
  dsimp only
  split
  · rw [insert_unmaps, setup_unmaps, setup_unmaps]
  · rfl

theorem sbrk_mmapTracked (s : AllocState) (t : Nat) :
    (sbrk_allocation s t).1.mmapTracked = s.mmapTracked := by
  unfold sbrk_allocation
  dsimp only
  cases s.sbrkRets with
  | nil => rfl
  | cons o rest =>
    cases o with
    | none => rfl
    | some r =>
      dsimp only
      split
      · split <;> simp only [setup_mmapTracked, insert_mmapTracked]
      · simp only [setup_mmapTracked]

theorem sbrk_mmapRets (s : AllocState) (t : Nat) :
    (sbrk_allocation s t).1.mmapRets = s.mmapRets := by
  unfold sbrk_allocation
  dsimp only
  cases s.sbrkRets with
  | nil => rfl
  | cons o rest =>
    cases o with
    | none => rfl
    | some r =>
      dsimp only
      split
      · split <;> simp only [setup_mmapRets, insert_mmapRets]
      · simp only [setup_mmapRets]

theorem sbrk_unmaps (s : AllocState) (t : Nat) :
    (sbrk_allocation s t).1.unmaps = s.unmaps := by
  unfold sbrk_allocation
  dsimp only
  cases s.sbrkRets with
  | nil => rfl
  | cons o rest =>
    cases o with
    | none => rfl
    | some r =>
      dsimp only
      split
      · split <;> simp only [setup_unmaps, insert_unmaps]
      · simp only [setup_unmaps]

/-- Claim C5: `my_malloc` takes the large-mapping path exactly when
the aligned request is at least `MMAP_THRESHOLD = 131072`: at or above
the threshold the call is `mmap_allocation` on the aligned size, and
the granted payload `a + 8` lies outside the static heap array
`[heap_start, heap_start + 4096)` whenever the kernel's grant does;
below the threshold the mmap machinery is untouched (registry, mmap
oracle and unmap log unchanged), and a request satisfied from the free
list returns the payload `b + 8` of a free-list block, inside the
managed region whenever the free lists only hold blocks of the managed
region. -/
theorem mmap_threshold_dispatch (s : AllocState) (n fuel : Nat) :
    (0 < n → MMAP_THRESHOLD ≤ align n →
      my_malloc s n fuel = mmap_allocation s (align n)) ∧
    (0 < n → align n < MMAP_THRESHOLD →
      (my_malloc s n fuel).1.mmapTracked = s.mmapTracked ∧
      (my_malloc s n fuel).1.mmapRets = s.mmapRets ∧
      (my_malloc s n fuel).1.unmaps = s.unmaps) ∧
    (∀ a : Nat, ∀ rest : List (Option Nat), 0 < n →
      MMAP_THRESHOLD ≤ align n →
      s.mmapRets = some a :: rest →
      s.heapStart + HEAP_TOTAL_SIZE ≤ a →
      (my_malloc s n fuel).2 = some (a + 8) ∧
      ¬ (s.heapStart ≤ a + 8 ∧ a + 8 < s.heapStart + HEAP_TOTAL_SIZE)) ∧
    (∀ b : Nat, 0 < n → align n < MMAP_THRESHOLD →
      first_fit s (mallocTotal n) fuel = some b →
      (∀ i, i < NUM_LISTS → ∀ x ∈ chainList s fuel (s.lists i),
        s.heapStart ≤ x ∧ x < s.heapTop) →
      (my_malloc s n fuel).2 = some (b + 8) ∧
      s.heapStart ≤ b ∧ b < s.heapTop) := by
  have hdisp : 0 < n → MMAP_THRESHOLD ≤ align n →
      my_malloc s n fuel = mmap_allocation s (align n) := by
    intro hn hth
    unfold my_malloc
    rw [if_neg (by omega), if_pos hth]
  refine ⟨hdisp, ?_, ?_, ?_⟩
  · intro hn hth
    unfold my_malloc
    rw [if_neg (by omega), if_neg (by omega)]
    dsimp only
    cases hff : first_fit s (mallocTotal n) fuel with
    | some b =>
      dsimp only
      refine ⟨?_, ?_, ?_⟩ <;>
        simp only [set_used, writeW_mmapTracked, writeW_mmapRets,
          writeW_unmaps, split_mmapTracked, split_mmapRets, split_unmaps,
          remove_mmapTracked, remove_mmapRets, remove_unmaps]
    | none =>
      dsimp only
      split
      · exact ⟨rfl, rfl, rfl⟩
      · exact ⟨sbrk_mmapTracked s _, sbrk_mmapRets s _, sbrk_unmaps s _⟩
  · intro a rest hn hth hor ha
    rw [hdisp hn hth]
    unfold mmap_allocation
    rw [hor]
    dsimp only
    constructor
    · rfl
    · simp only [HEAP_TOTAL_SIZE] at ha ⊢
      omega
  · intro b hn hth hff hchains
    unfold my_malloc
    rw [if_neg (by omega), if_neg (by omega)]
    dsimp only
    rw [hff]
    dsimp only
    refine ⟨rfl, ?_⟩
    have hmem := (first_fit_some s (mallocTotal n) fuel b hff).1
    rcases mem_bucketChains s fuel _ _ b hmem with ⟨j, hj1, hj2, hj3⟩
    have hI := get_list_index_le (mallocTotal n)
    have hjlt : j < NUM_LISTS := by
      simp only [NUM_LISTS] at hj2 ⊢
      omega
    exact hchains j hjlt b hj3

/-- Claim C5 witness: from the initial state (with an mmap grant at
1048576), a 131072-byte request goes to the mmap path and its payload
lies outside the static array; a 64-byte request in a state with the
freed 40-byte block at 4136 in its free list is satisfied from the
free list with a payload inside the managed region. -/
theorem mmap_threshold_dispatch_witness :
    (0 : Nat) < 131072 ∧
    MMAP_THRESHOLD ≤ align 131072 ∧
    my_malloc (initState [] [some 1048576]) 131072 100 =
      mmap_allocation (initState [] [some 1048576]) (align 131072) ∧
    (my_malloc (initState [] [some 1048576]) 131072 100).2 =
      some (1048576 + 8) ∧
    ¬ ((initState [] [some 1048576]).heapStart ≤ 1048576 + 8 ∧
       1048576 + 8 < (initState [] [some 1048576]).heapStart +
         HEAP_TOTAL_SIZE) ∧
    align 24 < MMAP_THRESHOLD ∧
    first_fit adjS3 (mallocTotal 24) 100 = some 4136 ∧
    (my_malloc adjS3 24 100).2 = some (4136 + 8) ∧
    adjS3.heapStart ≤ 4136 ∧ 4136 < adjS3.heapTop := by
  have h := mmap_threshold_dispatch (initState [] [some 1048576]) 131072 100
  have h3 := h.2.2.1 1048576 [] (by decide) (by decide) (by decide) (by decide)
  have h2 := mmap_threshold_dispatch adjS3 24 100
  have h4 := h2.2.2.2 4136 (by decide) (by decide) (by decide)
    (by decide)
  exact ⟨by decide, by decide, h.1 (by decide) (by decide), h3.1, h3.2,
    by decide, by decide, h4.1, h4.2.1, h4.2.2⟩

/-- Claim C8: from the initial state, `p1 = my_malloc(k)` returns the
payload 4104 of the block carved at `heap_start = 4096`, and after
`my_free(p1)` the very next `my_malloc(k)` returns the same pointer
4104: the freed block goes to the front of its bucket and the LIFO
segregated lists make it the first fit.  Holds for every request `k`
whose bumped total fits the static heap (in particular every `k` of
the spec's scenario, far below the large threshold) and any positive
search fuel. -/
theorem malloc_free_malloc_reuse (k fuel : Nat) (h1 : 0 < k)
    (h2 : mallocTotal k ≤ HEAP_TOTAL_SIZE) (hf : 0 < fuel) :
    (my_malloc (initState [] []) k fuel).2 = some 4104 ∧
    (my_malloc (my_free (my_malloc (initState [] []) k fuel).1 4104)
      k fuel).2 = some 4104 := by
  have hT8 : mallocTotal k % 8 = 0 := mallocTotal_mod8 k
  have hT32 : 32 ≤ mallocTotal k := mallocTotal_lb k
  have hTle : mallocTotal k ≤ 4096 := by
    simpa [HEAP_TOTAL_SIZE] using h2
  have hnotth : ¬ (MMAP_THRESHOLD ≤ align k) := by
    have := align_le_mallocTotal k
    simp only [MMAP_THRESHOLD]
    omega
  have hA : my_malloc (initState [] []) k fuel =
      ({ setup_block (initState [] []) 4096 (mallocTotal k) true with
          heapTop := 4096 + mallocTotal k }, some 4104) := by
    unfold my_malloc
    rw [if_neg (by omega)]
    dsimp only
    rw [if_neg hnotth]
    rw [first_fit_of_empty _ _ _ (fun i => rfl)]
    dsimp only
    rw [if_pos (show (initState [] []).heapTop + mallocTotal k ≤
        (initState [] []).heapEnd by
      simp only [initState, HEAP_TOTAL_SIZE]
      omega)]
    rfl
  set SA : AllocState :=
    { setup_block (initState [] []) 4096 (mallocTotal k) true with
      heapTop := 4096 + mallocTotal k } with hSA
  have hmem1 : SA.mem 4096 = mallocTotal k + 1 := by
    rw [hSA]
    show (setup_block (initState [] []) 4096 (mallocTotal k) true).mem 4096 =
      mallocTotal k + 1
    rw [setup_block_eq, writeW_mem, if_neg (by omega), set_header_mem_self]
    simp
    omega
  have hgsSA : get_size SA 4096 = mallocTotal k := by
    unfold get_size
    rw [hmem1]
    omega
  have hmmapSA : is_mmap SA 4096 = false := by
    unfold is_mmap
    rw [hmem1]
    simp only [decide_eq_false_iff_not]
    omega
  set S1 := set_used SA 4096 false with hS1
  set S2 := writeW S1 (get_footer S1 4096) (S1.mem 4096) with hS2
  have hfree : my_free SA 4104 =
      insert_into_free_list (coalesce S2 4096).1 (coalesce S2 4096).2 := by
    unfold my_free
    rw [if_neg (by omega)]
    dsimp only
    rw [if_neg (by simp [show get_block_from_payload 4104 = 4096 from rfl,
      hmmapSA])]
    rfl
  have hgsS1 : get_size S1 4096 = mallocTotal k := by
    rw [hS1, get_size_set_used_self, hgsSA]
  have hfoot : get_footer S1 4096 = 4088 + mallocTotal k := by
    unfold get_footer
    rw [hgsS1]
    omega
  have hgsS2 : get_size S2 4096 = mallocTotal k := by
    rw [hS2, get_size_writeW_ne _ _ _ _ (by rw [hfoot]; omega), hgsS1]
  have hTopS2 : S2.heapTop = 4096 + mallocTotal k := by
    rw [hS2, hS1, hSA]
    rfl
  have hStartS2 : S2.heapStart = 4096 := by
    rw [hS2, hS1, hSA]
    rfl
  have hnext : coalesce_next_ok S2 4096 = false := by
    unfold coalesce_next_ok get_next_physical_block
    rw [hgsS2, hTopS2]
    simp
  have hprev : coalesce_prev_ok S2 4096 = none := by
    unfold coalesce_prev_ok
    rw [if_neg (by rw [hStartS2]; simp)]
  have hcoal : coalesce S2 4096 =
      (setup_block S2 4096 (get_size S2 4096) false, 4096) := by
    unfold coalesce
    rw [hnext, hprev]
    rfl
  rw [hgsS2] at hcoal
  set X := setup_block S2 4096 (mallocTotal k) false with hX
  have hgsX : get_size X 4096 = mallocTotal k := by
    rw [hX, get_size_setup_self]
    omega
  have hlX : ∀ j, X.lists j = 0 := by
    intro j
    rw [hX, hS2, hS1, hSA]
    rfl
  set F := insert_into_free_list X 4096 with hF
  have hfree2 : my_free SA 4104 = F := by
    rw [hfree, hcoal]
  have hlistsF : F.lists (get_list_index (mallocTotal k)) = 4096 := by
    rw [hF, insert_lists_apply, hgsX, if_pos rfl]
  have hmemF : get_size F 4096 = mallocTotal k := by
    rw [hF, get_size_insert_other _ _ _ (by omega) (by omega)
      (Or.inl (by rw [hgsX]; exact hlX _))]
    exact hgsX
  have hwalk : ffWalk F (mallocTotal k) fuel 4096 = some 4096 := by
    cases fuel with
    | zero => omega
    | succ f =>
      unfold ffWalk
      rw [if_neg (by omega), if_pos (Nat.le_of_eq hmemF.symm)]
  have hffF : first_fit F (mallocTotal k) fuel = some 4096 := by
    unfold first_fit
    rw [show NUM_LISTS - get_list_index (mallocTotal k) =
        (5 - get_list_index (mallocTotal k)) + 1 by
      have := get_list_index_le (mallocTotal k)
      simp only [NUM_LISTS]
      omega]
    unfold ffFrom
    rw [hlistsF, hwalk]
  have hC : (my_malloc F k fuel).2 = some 4104 := by
    unfold my_malloc
    rw [if_neg (by omega)]
    dsimp only
    rw [if_neg hnotth]
    rw [hffF]
  constructor
  · rw [hA]
  · rw [hA]
    dsimp only
    rw [hfree2]
    exact hC

/-- Claim C8 witness: the spec's concrete instance `k = 64`. -/
theorem malloc_free_malloc_reuse_witness :
    (0 : Nat) < 64 ∧ mallocTotal 64 ≤ HEAP_TOTAL_SIZE ∧ (0 : Nat) < 100 ∧
    (my_malloc (initState [] []) 64 100).2 = some 4104 ∧
    (my_malloc (my_free (my_malloc (initState [] []) 64 100).1 4104)
      64 100).2 = some 4104 := by
  have h := malloc_free_malloc_reuse 64 100 (by decide) (by decide) (by decide)
  exact ⟨by decide, by decide, by decide, h.1, h.2⟩

theorem split_none (s : AllocState) (b need : Nat)
    (h : get_size s b < need + (sizeofBlock + 8)) :
    split_block s b need = s := by
  unfold split_block
  dsimp only
  rw [if_neg (by omega)]

theorem get_size_split_self (s : AllocState) (b need : Nat)
    (h : need + (sizeofBlock + 8) ≤ get_size s b)
    (hneed8 : need % 8 = 0) (hpos : 0 < need)
    (hhead : s.lists (get_list_index ((get_size s b - need) / 8 * 8)) = 0 ∨
             s.lists (get_list_index ((get_size s b - need) / 8 * 8)) + 16 ≠
               b) :
    get_size (split_block s b need) b = need := by
  have h32 : need + 32 ≤ get_size s b := by
    simp only [sizeofBlock] at h
    omega
  unfold split_block
  dsimp only
  rw [if_pos h]
  have hlists : (setup_block (setup_block s b need true) (b + need)
      (get_size s b - need) false).lists = s.lists := rfl
  have hsz : get_size (setup_block (setup_block s b need true) (b + need)
      (get_size s b - need) false) (b + need) =
      (get_size s b - need) / 8 * 8 := get_size_setup_self _ _ _ _
  rw [get_size_insert_other _ _ _ (by omega) (by omega)
    (by rw [hlists, hsz]; exact hhead.imp id fun hh => Ne.symm hh)]
  rw [get_size_setup_other _ _ _ _ _ (by omega) (by omega)]
  rw [get_size_setup_self]
  omega

theorem remove_lists_apply (s : AllocState) (b j : Nat) :
    (remove_from_free_list s b).lists j =
      if s.mem (b + 16) = 0 then
        (if j = get_list_index (get_size s b) then s.mem (b + 8)
         else s.lists j)
      else s.lists j := by
  unfold remove_from_free_list
  dsimp only
  by_cases hc1 : s.mem (b + 16) = 0
  · rw [if_neg (show ¬ (s.mem (b + 16) ≠ 0) by simp [hc1]), if_pos hc1]
    split <;> rfl
  · rw [if_pos (show s.mem (b + 16) ≠ 0 from hc1), if_neg hc1]
    split <;> rfl

theorem ite_8_16_le (c : Prop) [Decidable c] :
    (if c then (8 : Nat) else 16) ≤ 16 := by
  split <;> omega

/-- Claim C3: for every request `n`, every search fuel and every state
satisfying the well-formedness assumptions `C3Hyp`, `my_malloc(n)`
returns either the null pointer or a pointer whose address is a
multiple of the machine word, pointing at a block that provides at
least `n` usable payload bytes: the stored size minus header and
footer is at least `n` for heap blocks, and the mapped size minus the
header is at least `n` for mmap blocks (mmap blocks have no footer, so
only the 8-byte header is subtracted). -/
theorem my_malloc_null_or_aligned_payload (s : AllocState) (n fuel : Nat)
    (h : C3Hyp s fuel) :
    (my_malloc s n fuel).2 = none ∨
    ∃ p, (my_malloc s n fuel).2 = some p ∧ p % 8 = 0 ∧
      n + (if is_mmap (my_malloc s n fuel).1 (p - 8) then 8 else 16) ≤
        get_size (my_malloc s n fuel).1 (p - 8) := by
  obtain ⟨hTop8, hTopEnd, hchain, hsbrk, hmmap⟩ := h
  have hT8 := mallocTotal_mod8 n
  have hT32 := mallocTotal_lb n
  have hn16 := n16_le_mallocTotal n
  have haln := le_align n
  by_cases hn : n = 0
  · left
    rw [hn]
    rfl
  unfold my_malloc
  rw [if_neg hn]
  dsimp only
  by_cases hth : MMAP_THRESHOLD ≤ align n
  · rw [if_pos hth]
    unfold mmap_allocation
    dsimp only
    cases hmr : s.mmapRets with
    | nil => left; rfl
    | cons o rest =>
      cases o with
      | none => left; rfl
      | some a =>
        right
        have ha8 := hmmap a rest hmr
        dsimp only
        refine ⟨a + 8, rfl, by omega, ?_⟩
        rw [Nat.add_sub_cancel]
        have hgs : get_size
            ({ writeW { s with mmapRets := rest } a
                ((sizeofBlock + align n + pageSize - 1) / pageSize * pageSize
                  / 8 * 8 + 1 + 2) with
              mmapTracked :=
                (writeW { s with mmapRets := rest } a
                  ((sizeofBlock + align n + pageSize - 1) / pageSize *
                    pageSize / 8 * 8 + 1 + 2)).mmapTracked ++ [a] } :
              AllocState) a =
            (sizeofBlock + align n + pageSize - 1) / pageSize * pageSize
              / 8 * 8 := by
          unfold get_size
          rw [show (∀ (X : AllocState) (mt : List Nat) (x : Nat),
            ({ X with mmapTracked := mt } : AllocState).mem x = X.mem x)
            from fun _ _ _ => rfl]
          rw [writeW_mem, if_pos rfl]
          simp only [sizeofBlock, pageSize]
          omega
        rw [hgs]
        simp only [sizeofBlock, pageSize]
        refine le_trans (Nat.add_le_add_left (ite_8_16_le _) n) ?_
        omega
  · rw [if_neg hth]
    cases hff : first_fit s (mallocTotal n) fuel with
    | none =>
      dsimp only
      by_cases hcv : s.heapTop + mallocTotal n ≤ s.heapEnd
      · rw [if_pos hcv]
        right
        refine ⟨s.heapTop + 8, rfl, by omega, ?_⟩
        rw [Nat.add_sub_cancel]
        rw [get_size_set_heapTop, get_size_setup_self]
        refine le_trans (Nat.add_le_add_left (ite_8_16_le _) n) ?_
        omega
      · rw [if_neg hcv]
        unfold sbrk_allocation
        dsimp only
        cases hsr : s.sbrkRets with
        | nil => left; rfl
        | cons o rest =>
          cases o with
          | none => left; rfl
          | some r =>
            obtain ⟨hr8, hrge⟩ := hsbrk r rest hsr
            right
            dsimp only
            by_cases hne : r = s.heapEnd
            · rw [if_neg (by simp [hne])]
              refine ⟨s.heapTop + 8, rfl, by omega, ?_⟩
              rw [Nat.add_sub_cancel]
              rw [get_size_set_heapTop, get_size_setup_self]
              refine le_trans (Nat.add_le_add_left (ite_8_16_le _) n) ?_
              omega
            · rw [if_pos hne]
              refine ⟨r + 8, rfl, by omega, ?_⟩
              rw [Nat.add_sub_cancel]
              rw [get_size_set_heapTop, get_size_setup_self]
              refine le_trans (Nat.add_le_add_left (ite_8_16_le _) n) ?_
              omega
    | some b =>
      dsimp only
      right
      obtain ⟨hbmem, hbsz⟩ := first_fit_some s (mallocTotal n) fuel b hff
      rcases mem_bucketChains s fuel _ _ b hbmem with ⟨j, hj1, hj2, hj3⟩
      have hjlt : j < NUM_LISTS := by
        have := get_list_index_le (mallocTotal n)
        simp only [NUM_LISTS] at hj2 ⊢
        omega
      obtain ⟨hb8, hpfc, hnfc, hheads⟩ := hchain j hjlt b hj3
      refine ⟨b + 8, rfl, by omega, ?_⟩
      rw [Nat.add_sub_cancel]
      have hgs1 : get_size (remove_from_free_list s b) b = get_size s b :=
        remove_get_size_self s b hpfc hnfc
      have hgs2 : mallocTotal n ≤
          get_size (split_block (remove_from_free_list s b) b
            (mallocTotal n)) b := by
        by_cases hsp : mallocTotal n + (sizeofBlock + 8) ≤
            get_size (remove_from_free_list s b) b
        · refine le_of_eq (Eq.symm
            (get_size_split_self _ _ _ hsp hT8 (by omega) ?_))
          rw [remove_lists_apply]
          split
          · split
            · exact hnfc
            · exact hheads _ (by
                have := get_list_index_le
                  ((get_size (remove_from_free_list s b) b - mallocTotal n)
                    / 8 * 8)
                simp only [NUM_LISTS]
                omega)
          · exact hheads _ (by
              have := get_list_index_le
                ((get_size (remove_from_free_list s b) b - mallocTotal n)
                  / 8 * 8)
              simp only [NUM_LISTS]
              omega)
        · rw [split_none _ _ _ (by omega), hgs1]
          exact hbsz
      have hgs3 : mallocTotal n ≤
          get_size (set_used (split_block (remove_from_free_list s b) b
            (mallocTotal n)) b true) b := by
        rw [get_size_set_used_self]
        exact hgs2
      rw [get_size_writeW_ne _ _ _ _ (by
        unfold get_footer
        omega)]
      refine le_trans (Nat.add_le_add_left (ite_8_16_le _) n) ?_
      omega

/-- Claim C3 witness: the initial state satisfies `C3Hyp` (its chains
are empty and its oracles exhausted), and a 24-byte request from it
returns the word-aligned payload 4104 backed by at least 24 usable
bytes. -/
theorem my_malloc_null_or_aligned_payload_witness :
    C3Hyp (initState [] []) 50 ∧
    ((my_malloc (initState [] []) 24 50).2 = none ∨
     ∃ p, (my_malloc (initState [] []) 24 50).2 = some p ∧ p % 8 = 0 ∧
       24 + (if is_mmap (my_malloc (initState [] []) 24 50).1 (p - 8)
             then 8 else 16) ≤
         get_size (my_malloc (initState [] []) 24 50).1 (p - 8)) := by
  have hhyp : C3Hyp (initState [] []) 50 := by
    refine ⟨by decide, by decide, by decide, ?_, ?_⟩
    · intro r rest hr
      simp [initState] at hr
    · intro a rest ha
      simp [initState] at ha
  exact ⟨hhyp, my_malloc_null_or_aligned_payload (initState [] []) 24 50 hhyp⟩

/-- Claim C2 (amended) witness: the free of payload 4104 in `adjS4`
merges the block 4096 with its free next neighbour 4136, the resulting
block ending exactly at 4176 — the end of the absorbed neighbour. -/
theorem coalesce_absorbs_free_neighbor_witness :
    get_size adjPre 4096 % 8 = 0 ∧
    coalesce_next_ok adjPre 4096 = true ∧
    coalesce_prev_ok adjPre 4096 = none ∧
    (coalesce adjPre 4096).2 = 4096 ∧
    4096 + get_size (coalesce adjPre 4096).1 4096 =
      get_next_physical_block adjPre 4096 +
        get_size adjPre (get_next_physical_block adjPre 4096) := by
  have h := (coalesce_absorbs_free_neighbor adjPre 4096 (by decide)).1
    (by decide) (by decide) (by decide) (by decide) (by decide)
  exact ⟨by decide, by decide, by decide, h.1, h.2⟩

end HeapAlloc
